import Mathlib

/-!
# MicroDocs — verification of the note-sharing core

Shallow embedding of the MicroDocs Next.js API routes:

* `src/app/api/notes/route.ts`            — Create (POST) and `generateUniqueSlug`
* `src/app/api/notes/[slug]/route.ts`     — Read (GET), Update (PUT), `applyRateLimit`
* `src/app/api/notes/[slug]/history/route.ts` — History read (GET)
* `src/app/notes/[slug]/history/page.tsx` — `DiffViewer` (delegates to the external
  `diff-match-patch` package; modelled from the spec, see `diff` below)

Conventions of the embedding:

* Instants (`Date`, `Date.now()`) are `Nat` (milliseconds); the ISO-8601
  serialization at the wire boundary is modelled as the instant itself.
* The MongoDB collection is a `List DbNote`; `findOne {slug}` is `List.find?`.
* `bcrypt.compare` / `bcrypt.hash` and the `bad-words` filter are external opaque
  capabilities: the handlers are parametrized by
  `verify : String → String → Bool`, `hashFn : String → String`,
  `profane : String → Bool`.
* `nanoid` is a random source `rng : Nat → String` indexed by call order.
* Optional JSON fields are `Option _`; JavaScript falsiness of a string
  (`!s` true exactly for `""` among strings, and for `undefined`/`null`)
  is modelled explicitly where the code tests it.
* The `Authorization: Bearer <token>` extraction in GET is transport glue;
  the handlers take the extracted token as an `Option String`.
-/

/-- A history entry (`{content, timestamp}` subdocument). -/
structure Revision where
  content : String
  timestamp : Nat
deriving DecidableEq

/-- A stored note (interface `DbNote` of `[slug]/route.ts`). -/
structure DbNote where
  slug : String
  title : String
  content : String
  passwordHash : Option String
  createdAt : Nat
  updatedAt : Nat
  expiresAt : Option Nat
  history : List Revision
deriving DecidableEq

/-- `db.collection('notes').findOne({ slug })`. -/
def findNote (store : List DbNote) (slug : String) : Option DbNote :=
  store.find? (fun n => n.slug == slug)

/-- `note.expiresAt && note.expiresAt <= new Date()`. -/
def isExpired (n : DbNote) (now : Nat) : Bool :=
  match n.expiresAt with
  | some e => e ≤ now
  | none => false

/-! ## Diff Presentation Engine

`DiffViewer` (history/page.tsx, lines 56–85) calls `dmp.diff_main(oldText,
newText)` followed by `dmp.diff_cleanupSemantic` from the external
`diff-match-patch` package and renders each `(type, text)` pair: `0` = common
segment, `-1` = deletion, `1` = insertion.

Modelled from the spec: the `diff_main`/`diff_cleanupSemantic` algorithm lives
in the external `diff-match-patch` dependency, not in this repository.  §4.4 of
the design leaves the exact algorithm an implementation choice and requires
only that the output be a semantically lossless ordered partition.  The model
below mirrors the outer structure of `diff_main` (equal texts short-circuit,
common prefix and suffix are split off, the distinct middles become a deletion
followed by an insertion).  Texts are `List Char`.
-/

/-- A diff segment kind: `0` / `-1` / `1` in `diff-match-patch`. -/
inductive DiffOp where
  | equal
  | delete
  | insert
deriving DecidableEq

/-- Split two texts into their longest common prefix and the two remainders. -/
def splitCommon : List Char → List Char → List Char × List Char × List Char
  | a :: as, b :: bs =>
    if a = b then
      let r := splitCommon as bs
      (a :: r.1, r.2.1, r.2.2)
    else ([], a :: as, b :: bs)
  | as, bs => ([], as, bs)

/-- `diff(oldText, newText)`: ordered sequence of segments.
Modelled from the spec (§4.4), mirroring the outer structure of
`diff_main`: equal texts produce a single `equal` segment (or nothing when
empty); otherwise the common prefix and common suffix are split off and the
distinct middles become a `delete` and/or an `insert` segment. -/
def diff (a b : List Char) : List (DiffOp × List Char) :=
  if a = b then (if a = [] then [] else [(DiffOp.equal, a)])
  else
    let p := splitCommon a b
    let s := splitCommon p.2.1.reverse p.2.2.reverse
    let a2 := s.2.1.reverse
    let b2 := s.2.2.reverse
    let mid : List (DiffOp × List Char) :=
      if a2 = [] then [(DiffOp.insert, b2)]
      else if b2 = [] then [(DiffOp.delete, a2)]
      else [(DiffOp.delete, a2), (DiffOp.insert, b2)]
    (if p.1 = [] then [] else [(DiffOp.equal, p.1)])
      ++ mid
      ++ (if s.1 = [] then [] else [(DiffOp.equal, s.1.reverse)])

/-- Concatenate the text of the `equal` and `delete` segments, in order. -/
def recoverOld (ds : List (DiffOp × List Char)) : List Char :=
  ds.foldr (fun d acc =>
    match d.1 with
    | DiffOp.equal => d.2 ++ acc
    | DiffOp.delete => d.2 ++ acc
    | DiffOp.insert => acc) []

/-- Concatenate the text of the `equal` and `insert` segments, in order. -/
def recoverNew (ds : List (DiffOp × List Char)) : List Char :=
  ds.foldr (fun d acc =>
    match d.1 with
    | DiffOp.equal => d.2 ++ acc
    | DiffOp.insert => d.2 ++ acc
    | DiffOp.delete => acc) []

theorem splitCommon_spec (a b : List Char) :
    a = (splitCommon a b).1 ++ (splitCommon a b).2.1
    ∧ b = (splitCommon a b).1 ++ (splitCommon a b).2.2 := by
  induction a generalizing b with
  | nil => cases b <;> simp [splitCommon]
  | cons x xs ih =>
    cases b with
    | nil => simp [splitCommon]
    | cons y ys =>
      by_cases h : x = y
      · have := ih ys
        simp [splitCommon, h]
        exact ⟨this.1, this.2⟩
      · simp [splitCommon, h]

theorem recoverOld_append (l r : List (DiffOp × List Char)) :
    recoverOld (l ++ r) = recoverOld l ++ recoverOld r := by
  induction l with
  | nil => simp [recoverOld]
  | cons d ds ih =>
    cases d with
    | mk op t => cases op <;> simp [recoverOld] at ih ⊢ <;> simp [ih]

theorem recoverNew_append (l r : List (DiffOp × List Char)) :
    recoverNew (l ++ r) = recoverNew l ++ recoverNew r := by
  induction l with
  | nil => simp [recoverNew]
  | cons d ds ih =>
    cases d with
    | mk op t => cases op <;> simp [recoverNew] at ih ⊢ <;> simp [ih]

theorem recoverOld_eqSeg (l : List Char) :
    recoverOld (if l = [] then [] else [(DiffOp.equal, l)]) = l := by
  by_cases h : l = [] <;> simp [h, recoverOld]

theorem recoverNew_eqSeg (l : List Char) :
    recoverNew (if l = [] then [] else [(DiffOp.equal, l)]) = l := by
  by_cases h : l = [] <;> simp [h, recoverNew]

theorem recoverOld_midSeg (a2 b2 : List Char) :
    recoverOld (if a2 = [] then [(DiffOp.insert, b2)]
      else if b2 = [] then [(DiffOp.delete, a2)]
      else [(DiffOp.delete, a2), (DiffOp.insert, b2)]) = a2 := by
  by_cases h1 : a2 = [] <;> by_cases h2 : b2 = [] <;> simp [h1, h2, recoverOld]

theorem recoverNew_midSeg (a2 b2 : List Char) :
    recoverNew (if a2 = [] then [(DiffOp.insert, b2)]
      else if b2 = [] then [(DiffOp.delete, a2)]
      else [(DiffOp.delete, a2), (DiffOp.insert, b2)]) = b2 := by
  by_cases h1 : a2 = [] <;> by_cases h2 : b2 = [] <;> simp [h1, h2, recoverNew]

theorem recoverOld_sufSeg (l : List Char) :
    recoverOld (if l = [] then [] else [(DiffOp.equal, l.reverse)]) = l.reverse := by
  by_cases h : l = [] <;> simp [h, recoverOld]

theorem recoverNew_sufSeg (l : List Char) :
    recoverNew (if l = [] then [] else [(DiffOp.equal, l.reverse)]) = l.reverse := by
  by_cases h : l = [] <;> simp [h, recoverNew]

/-- C7: for all text pairs (A, B), `diff` produces an ordered sequence of
Equal/Insert/Delete segments such that concatenating the text of the Equal and
Delete segments in order reconstructs A, and concatenating the text of the
Equal and Insert segments in order reconstructs B.  `diff` is a pure Lean
function, hence deterministic given identical inputs. -/
theorem diff_roundTrip (a b : List Char) :
    recoverOld (diff a b) = a ∧ recoverNew (diff a b) = b := by
  by_cases hab : a = b
  · subst hab
    by_cases ha : a = [] <;> simp [diff, ha, recoverOld, recoverNew]
  · have hp := splitCommon_spec a b
    have hs := splitCommon_spec (splitCommon a b).2.1.reverse (splitCommon a b).2.2.reverse
    have hra : (splitCommon a b).2.1 =
        (splitCommon (splitCommon a b).2.1.reverse (splitCommon a b).2.2.reverse).2.1.reverse
          ++ (splitCommon (splitCommon a b).2.1.reverse (splitCommon a b).2.2.reverse).1.reverse := by
      have h := congrArg List.reverse hs.1
      simpa using h
    have hrb : (splitCommon a b).2.2 =
        (splitCommon (splitCommon a b).2.1.reverse (splitCommon a b).2.2.reverse).2.2.reverse
          ++ (splitCommon (splitCommon a b).2.1.reverse (splitCommon a b).2.2.reverse).1.reverse := by
      have h := congrArg List.reverse hs.2
      simpa using h
    constructor
    · simp only [diff, if_neg hab]
      rw [recoverOld_append, recoverOld_append, recoverOld_eqSeg, recoverOld_midSeg,
        recoverOld_sufSeg]
      rw [List.append_assoc, ← hra]
      exact hp.1.symm
    · simp only [diff, if_neg hab]
      rw [recoverNew_append, recoverNew_append, recoverNew_eqSeg, recoverNew_midSeg,
        recoverNew_sufSeg]
      rw [List.append_assoc, ← hrb]
      exact hp.2.symm

/-! ## Identifier Allocator — `generateUniqueSlug` (api/notes/route.ts, lines 45–93)

`nanoid` is modelled as `rng : Nat → String`, indexed by call order (the
4-character suffix calls and the 8-character fallback calls draw from the same
sequence; the output length is irrelevant to the properties proved here).
The unbounded fallback loop terminates only probabilistically; it is modelled
with explicit `fuel`, `none` meaning the loop has not yet terminated. -/

/-- JavaScript whitespace, as matched by `trim()` and `\s` (common cases). -/
def isWs (c : Char) : Bool :=
  c = ' ' || c = '\t' || c = '\n' || c = '\r' || c = Char.ofNat 11 || c = Char.ofNat 12

/-- `String.prototype.trim()`. -/
def jsTrimList (l : List Char) : List Char :=
  ((l.dropWhile isWs).reverse.dropWhile isWs).reverse

/-- `replace(/\s+/g, '-')`: each maximal whitespace run becomes one hyphen.
The `inRun` flag records whether the previous character was whitespace. -/
def collapseWsAux : List Char → Bool → List Char
  | [], _ => []
  | c :: cs, inRun =>
    if isWs c then
      (if inRun then collapseWsAux cs true else '-' :: collapseWsAux cs true)
    else c :: collapseWsAux cs false

/-- Characters kept by `replace(/[^a-z0-9-]/g, '')`. -/
def isSlugChar (c : Char) : Bool :=
  ('a' ≤ c && c ≤ 'z') || ('0' ≤ c && c ≤ '9') || c = '-'

/-- Lines 49–53: `proposedSlug?.trim().toLowerCase().replace(/\s+/g, '-') || ''`,
then, when nonempty, `replace(/[^a-z0-9-]/g, '')` and `substring(0, 50)`. -/
def normalizeBaseList (l : List Char) : List Char :=
  let b := collapseWsAux ((jsTrimList l).map Char.toLower) false
  if b = [] then [] else (b.filter isSlugChar).take 50

/-- The normalized base slug; `none` models a `null`/`undefined` proposal. -/
def normalizeBase : Option String → String
  | none => ""
  | some s => String.mk (normalizeBaseList s.data)

/-- The normalization exactly as the claim words it (no trim): lowercase,
whitespace runs to hyphens, strip to `[a-z0-9-]`, truncate to 50 characters.
Stated from the spec's words for comparison with `normalizeBase`. -/
def claimNormalizeList (l : List Char) : List Char :=
  ((collapseWsAux (l.map Char.toLower) false).filter isSlugChar).take 50

/-- Claim-side normalization on the optional proposal. -/
def claimNormalize : Option String → String
  | none => ""
  | some s => String.mk (claimNormalizeList s.data)

/-- `MAX_ATTEMPTS` of `generateUniqueSlug`. -/
def MAX_ATTEMPTS : Nat := 5

/-- The `while (!isUnique && attempts < MAX_ATTEMPTS)` loop (lines 60–76).
`attempts` is the loop counter (incremented only on collision), `idx` counts
`nanoid` calls, and the first argument is `MAX_ATTEMPTS - attempts`, driving
the recursion. -/
def slugLoopAux (occupied : List String) (base : String) (rng : Nat → String) :
    Nat → Nat → Nat → Option String
  | 0, _, _ => none
  | remaining + 1, attempts, idx =>
    let current :=
      if base ≠ "" ∧ attempts > 0 then base ++ "-" ++ rng idx
      else if base = "" then rng idx
      else base
    let idx' := if base = "" ∨ attempts > 0 then idx + 1 else idx
    if occupied.contains current then
      slugLoopAux occupied base rng remaining (attempts + 1) idx'
    else some current

/-- The unbounded fallback loop (lines 78–90): fully random identifiers until
one is free, modelled with fuel. -/
def fallbackLoop (occupied : List String) (rng : Nat → String) :
    Nat → Nat → Option String
  | _, 0 => none
  | idx, fuel + 1 =>
    if occupied.contains (rng idx) then fallbackLoop occupied rng (idx + 1) fuel
    else some (rng idx)

/-- `generateUniqueSlug(db, proposedSlug)`.  `occupied` is the set of slugs in
the store (`findOne({slug})` succeeds exactly on them).  The bounded loop makes
one `nanoid` call per attempt except the first attempt on a nonempty base, so
on full failure the fallback continues at index `MAX_ATTEMPTS - 1`
(respectively `MAX_ATTEMPTS` for an empty base). -/
def generateUniqueSlug (occupied : List String) (proposed : Option String)
    (rng : Nat → String) (fuel : Nat) : Option String :=
  let base := normalizeBase proposed
  match slugLoopAux occupied base rng MAX_ATTEMPTS 0 0 with
  | some s => some s
  | none =>
    fallbackLoop occupied rng
      (if base = "" then MAX_ATTEMPTS else MAX_ATTEMPTS - 1) fuel

theorem normalizeBaseList_eq_claim (l : List Char) :
    normalizeBaseList l = claimNormalizeList (jsTrimList l) := by
  unfold normalizeBaseList claimNormalizeList
  by_cases h : collapseWsAux ((jsTrimList l).map Char.toLower) false = [] <;> simp [h]

theorem slugLoopAux_free (occupied : List String) (base : String)
    (rng : Nat → String) :
    ∀ remaining attempts idx r,
      slugLoopAux occupied base rng remaining attempts idx = some r →
      occupied.contains r = false := by
  intro remaining
  induction remaining with
  | zero => intro attempts idx r h; simp [slugLoopAux] at h
  | succ n ih =>
    intro attempts idx r h
    rw [slugLoopAux] at h
    by_cases hc : occupied.contains
        (if base ≠ "" ∧ attempts > 0 then base ++ "-" ++ rng idx
         else if base = "" then rng idx else base) = true
    · rw [if_pos hc] at h
      exact ih _ _ _ h
    · rw [if_neg hc] at h
      cases h
      simpa using hc

theorem fallbackLoop_free (occupied : List String) (rng : Nat → String) :
    ∀ fuel idx r, fallbackLoop occupied rng idx fuel = some r →
      occupied.contains r = false := by
  intro fuel
  induction fuel with
  | zero => intro idx r h; simp [fallbackLoop] at h
  | succ n ih =>
    intro idx r h
    rw [fallbackLoop] at h
    by_cases hc : occupied.contains (rng idx) = true
    · rw [if_pos hc] at h
      exact ih _ _ h
    · rw [if_neg hc] at h
      cases h
      simpa using hc

theorem generateUniqueSlug_free (occupied : List String) (proposed : Option String)
    (rng : Nat → String) (fuel : Nat) (r : String)
    (h : generateUniqueSlug occupied proposed rng fuel = some r) :
    occupied.contains r = false := by
  simp only [generateUniqueSlug] at h
  cases hm : slugLoopAux occupied (normalizeBase proposed) rng MAX_ATTEMPTS 0 0 with
  | some s =>
    rw [hm] at h
    cases h
    exact slugLoopAux_free _ _ _ _ _ _ _ hm
  | none =>
    rw [hm] at h
    exact fallbackLoop_free _ _ _ _ _ h

theorem slugLoopAux_step (occupied : List String) (base : String) (rng : Nat → String)
    (remaining attempts idx : Nat) :
    slugLoopAux occupied base rng (remaining + 1) attempts idx =
      (let current :=
        if base ≠ "" ∧ attempts > 0 then base ++ "-" ++ rng idx
        else if base = "" then rng idx
        else base
      let idx' := if base = "" ∨ attempts > 0 then idx + 1 else idx
      if occupied.contains current then
        slugLoopAux occupied base rng remaining (attempts + 1) idx'
      else some current) := rfl

theorem slugLoop_base_free (occupied : List String) (base : String) (rng : Nat → String)
    (hb : base ≠ "") (hf : occupied.contains base = false) :
    slugLoopAux occupied base rng 5 0 0 = some base := by
  have hf' : base ∉ occupied := by simpa using hf
  rw [show (5:Nat) = 4 + 1 from rfl, slugLoopAux_step]
  simp [hb, hf']

theorem slugLoop_empty_free (occupied : List String) (rng : Nat → String)
    (hf : occupied.contains (rng 0) = false) :
    slugLoopAux occupied "" rng 5 0 0 = some (rng 0) := by
  have hf' : rng 0 ∉ occupied := by simpa using hf
  rw [show (5:Nat) = 4 + 1 from rfl, slugLoopAux_step]
  simp [hf']

theorem slugLoop_all_taken (occupied : List String) (base : String) (rng : Nat → String)
    (hb : base ≠ "") (h0 : occupied.contains base = true)
    (hi : ∀ i, i < 4 → occupied.contains (base ++ "-" ++ rng i) = true) :
    slugLoopAux occupied base rng 5 0 0 = none := by
  have h0' : base ∈ occupied := by simpa using h0
  have e0 : base ++ "-" ++ rng 0 ∈ occupied := by simpa using hi 0 (by decide)
  have e1 : base ++ "-" ++ rng 1 ∈ occupied := by simpa using hi 1 (by decide)
  have e2 : base ++ "-" ++ rng 2 ∈ occupied := by simpa using hi 2 (by decide)
  have e3 : base ++ "-" ++ rng 3 ∈ occupied := by simpa using hi 3 (by decide)
  rw [show (5:Nat) = 4 + 1 from rfl, slugLoopAux_step]
  simp [hb, h0']
  rw [show (4:Nat) = 3 + 1 from rfl, slugLoopAux_step]
  simp [hb, e0]
  rw [show (3:Nat) = 2 + 1 from rfl, slugLoopAux_step]
  simp [hb, e1]
  rw [show (2:Nat) = 1 + 1 from rfl, slugLoopAux_step]
  simp [hb, e2]
  rw [show (1:Nat) = 0 + 1 from rfl, slugLoopAux_step]
  simp [hb, e3, slugLoopAux]

/-- C3 counterexample: the claim's normalization steps (lowercase, whitespace
runs to hyphens, strip, truncate — with no trimming) predict that on the empty
store the proposal `" a"` yields the slug `"-a"`; the code trims first and
returns `"a"`. -/
theorem generateUniqueSlug_claim_cex :
    generateUniqueSlug [] (some " a") (fun _ => "zzz") 1 = some "a"
    ∧ claimNormalize (some " a") = "-a"
    ∧ normalizeBase (some " a") ≠ claimNormalize (some " a") := by
  refine ⟨by decide, by decide, by decide⟩

/-- C3 (amended): the identifier allocator first trims surrounding whitespace
from the proposal and then normalizes it (lowercase, whitespace runs replaced
by hyphens, characters outside `[a-z0-9-]` stripped, truncation to 50
characters); an empty or absent proposal instead starts from a random
identifier; the normalized base is attempted first and returned when free;
when the base and the four suffixed retries (5 total bounded attempts) all
collide, the allocator falls back to the unbounded loop of fully random
identifiers; and any slug it returns was not occupied at the instant it was
checked. -/
theorem generateUniqueSlug_correct
    (occupied : List String) (s : String) (proposed : Option String)
    (rng : Nat → String) (fuel : Nat) :
    (normalizeBase (some s) = claimNormalize (some (String.mk (jsTrimList s.data))))
    ∧ (normalizeBase proposed ≠ "" →
        occupied.contains (normalizeBase proposed) = false →
        generateUniqueSlug occupied proposed rng fuel = some (normalizeBase proposed))
    ∧ (normalizeBase proposed = "" → occupied.contains (rng 0) = false →
        generateUniqueSlug occupied proposed rng fuel = some (rng 0))
    ∧ (normalizeBase proposed ≠ "" →
        occupied.contains (normalizeBase proposed) = true →
        (∀ i, i < 4 → occupied.contains (normalizeBase proposed ++ "-" ++ rng i) = true) →
        generateUniqueSlug occupied proposed rng fuel = fallbackLoop occupied rng 4 fuel)
    ∧ (∀ r, generateUniqueSlug occupied proposed rng fuel = some r →
        occupied.contains r = false) := by
  refine ⟨?_, ?_, ?_, ?_, ?_⟩
  · simp [normalizeBase, claimNormalize, normalizeBaseList_eq_claim]
  · intro hb hf
    simp only [generateUniqueSlug, MAX_ATTEMPTS]
    rw [slugLoop_base_free occupied _ rng hb hf]
  · intro hb hf
    simp only [generateUniqueSlug, MAX_ATTEMPTS, hb]
    rw [slugLoop_empty_free occupied rng hf]
  · intro hb h0 hi
    simp only [generateUniqueSlug, MAX_ATTEMPTS]
    rw [slugLoop_all_taken occupied _ rng hb h0 hi]
    simp [hb]
  · intro r h
    exact generateUniqueSlug_free occupied proposed rng fuel r h

/-- Witness for `generateUniqueSlug_correct` at concrete inputs. -/
theorem generateUniqueSlug_correct_witness :
    (normalizeBase (some " a") = claimNormalize (some (String.mk (jsTrimList " a".data))))
    ∧ (normalizeBase (some "base") ≠ "" →
        ["x"].contains (normalizeBase (some "base")) = false →
        generateUniqueSlug ["x"] (some "base") (fun _ => "r") 1 = some (normalizeBase (some "base")))
    ∧ (normalizeBase (some "base") = "" → List.contains ["x"] ((fun _ => "r") 0) = false →
        generateUniqueSlug ["x"] (some "base") (fun _ => "r") 1 = some ((fun _ => "r") 0))
    ∧ (normalizeBase (some "base") ≠ "" →
        ["x"].contains (normalizeBase (some "base")) = true →
        (∀ i, i < 4 →
          List.contains ["x"] (normalizeBase (some "base") ++ "-" ++ (fun _ => "r") i) = true) →
        generateUniqueSlug ["x"] (some "base") (fun _ => "r") 1 =
          fallbackLoop ["x"] (fun _ => "r") 4 1)
    ∧ (∀ r, generateUniqueSlug ["x"] (some "base") (fun _ => "r") 1 = some r →
        List.contains ["x"] r = false) :=
  generateUniqueSlug_correct ["x"] " a" (some "base") (fun _ => "r") 1

/-! ## Note Lifecycle — the route handlers

Each handler is embedded as a pure function over the store at the instant the
request is processed; `now` stands for every `new Date()` / `Date.now()` drawn
during the request.  Success carries what the handler persists and/or returns;
`failure status message` mirrors `NextResponse.json({message}, {status})`.
On PUT success the code answers 200 with either 'Note updated successfully!'
or 'No changes detected to update.'; both are the same success outcome here. -/

/-- The projected note view returned by GET (lines 108–115); it has exactly the
fields `title, content, isProtected, createdAt, updatedAt, expiresAt` and no
digest field. -/
structure NoteView where
  title : String
  content : String
  isProtected : Bool
  createdAt : Nat
  updatedAt : Nat
  expiresAt : Option Nat
deriving DecidableEq

inductive GetResult where
  | failure (status : Nat) (message : String)
  | success (view : NoteView)
deriving DecidableEq

/-- The `noteResponse` projection of GET. -/
def viewOf (n : DbNote) : NoteView :=
  { title := n.title
    content := n.content
    isProtected := n.passwordHash.isSome
    createdAt := n.createdAt
    updatedAt := n.updatedAt
    expiresAt := n.expiresAt }

/-- GET `/api/notes/[slug]` (lines 66–126), after the rate-limit gate.
`token` is the extracted Bearer credential; `!token` in JS is true for a
missing header and for an empty token alike. -/
def getNote (store : List DbNote) (verify : String → String → Bool)
    (slug : String) (token : Option String) (now : Nat) : GetResult :=
  match findNote store slug with
  | none => .failure 404 "Note not found."
  | some note =>
    if isExpired note now then .failure 404 "Note has expired."
    else
      match note.passwordHash with
      | none => .success (viewOf note)
      | some h =>
        match token with
        | none => .failure 401 "Password required."
        | some tk =>
          if tk = "" then .failure 401 "Password required."
          else if verify tk h then .success (viewOf note)
          else .failure 401 "Invalid password."

/-- The history-read response body (history route, lines 112–125): exactly
`title`, the mapped history entries, and `isProtected`; no digest field. -/
structure HistoryView where
  title : String
  history : List Revision
  isProtected : Bool
deriving DecidableEq

inductive HistoryResult where
  | failure (status : Nat) (message : String)
  | success (view : HistoryView)
deriving DecidableEq

/-- GET `/api/notes/[slug]/history` (history route, lines 64–134), after the
rate-limit gate.  The auth block is identical to the note GET. -/
def getHistory (store : List DbNote) (verify : String → String → Bool)
    (slug : String) (token : Option String) (now : Nat) : HistoryResult :=
  match findNote store slug with
  | none => .failure 404 "Note not found."
  | some note =>
    if isExpired note now then .failure 404 "Note has expired."
    else
      match note.passwordHash with
      | none => .success ⟨note.title, note.history, false⟩
      | some h =>
        match token with
        | none => .failure 401 "Password required."
        | some tk =>
          if tk = "" then .failure 401 "Password required."
          else if verify tk h then .success ⟨note.title, note.history, true⟩
          else .failure 401 "Invalid password."

/-- The `expiresAt` field of a PUT body: omitted/undefined, explicit `null`,
or an ISO timestamp string (nonempty, hence truthy in the `else if`). -/
inductive ExpDirective where
  | absent
  | null
  | stamp (t : Nat)
deriving DecidableEq

inductive PutResult where
  | failure (status : Nat) (message : String)
  | success (updated : DbNote)
deriving DecidableEq

/-- Lines 207–219 of PUT: resolve the `expiresAt` directive against the stored
value.  `none` is the 400 'Expiration date must be in the future.' rejection;
`some newExp` is the resulting stored expiration. -/
def resolveExpiry (cur : Option Nat) (d : ExpDirective) (now : Nat) :
    Option (Option Nat) :=
  match d with
  | .null => some none
  | .stamp t => if t ≤ now then none else some (some t)
  | .absent => some cur

/-- `if (newPassword) updateDoc.$set.passwordHash = await bcrypt.hash(...)`
(line 203): the stored digest after an update. -/
def newHashOf (hashFn : String → String) (cur : Option String)
    (newPassword : Option String) : Option String :=
  match newPassword with
  | some p => if p = "" then cur else some (hashFn p)
  | none => cur

/-- The update-document application of PUT (lines 193–236): `$set` of title,
content, updatedAt, optional passwordHash and expiresAt, and the conditional
`$push` of a history revision when the content changed. -/
def putApply (hashFn : String → String) (note : DbNote) (title content : String)
    (newPassword : Option String) (expiresAt : ExpDirective) (now : Nat) : PutResult :=
  let newHash := newHashOf hashFn note.passwordHash newPassword
  match resolveExpiry note.expiresAt expiresAt now with
  | none => .failure 400 "Expiration date must be in the future."
  | some newExp =>
    let newHistory :=
      if note.content ≠ content then note.history ++ [⟨content, now⟩]
      else note.history
    .success { note with
      title := title
      content := content
      updatedAt := now
      passwordHash := newHash
      expiresAt := newExp
      history := newHistory }

/-- PUT `/api/notes/[slug]` (lines 129–255), after the rate-limit gate. -/
def putNote (store : List DbNote) (verify : String → String → Bool)
    (hashFn : String → String) (profane : String → Bool) (slug : String)
    (title content : String) (currentPassword newPassword : Option String)
    (expiresAt : ExpDirective) (now : Nat) : PutResult :=
  if title = "" ∨ content = "" then
    .failure 400 "Title and content are required for update."
  else if profane (title ++ " " ++ content) then
    .failure 400 "Profanity detected in title or content. Please remove inappropriate language."
  else
    match findNote store slug with
    | none => .failure 404 "Note not found."
    | some note =>
      if isExpired note now then .failure 400 "Cannot update an expired note."
      else
        match note.passwordHash with
        | none => putApply hashFn note title content newPassword expiresAt now
        | some h =>
          match currentPassword with
          | none => .failure 401 "Current password required to update this note."
          | some cp =>
            if cp = "" then .failure 401 "Current password required to update this note."
            else if verify cp h then
              putApply hashFn note title content newPassword expiresAt now
            else .failure 401 "Incorrect password."

inductive PostResult where
  | failure (status : Nat) (message : String)
  | created (slug : String) (note : DbNote)
  | noFuel
deriving DecidableEq

/-- `customSlug || title` (line 148): an absent or empty custom slug falls
back to the title. -/
def proposedOf (customSlug : Option String) (title : String) : String :=
  match customSlug with
  | some c => if c = "" then title else c
  | none => title

/-- POST `/api/notes` (api/notes/route.ts, lines 119–203), after the rate-limit
gate.  `noFuel` models the unbounded fallback slug loop not having terminated
within the modelled fuel.  `expiresAt` is `some t` exactly when the request
carries a truthy expiration. -/
def postNote (store : List DbNote) (rng : Nat → String) (hashFn : String → String)
    (profane : String → Bool) (title content : String)
    (password customSlug : Option String) (expiresAt : Option Nat)
    (now : Nat) (fuel : Nat) : PostResult :=
  if title = "" ∨ content = "" then
    .failure 400 "Title and content are required."
  else if profane (title ++ " " ++ content) then
    .failure 400 "Profanity detected in title or content. Please remove inappropriate language."
  else
    let proposed := proposedOf customSlug title
    match generateUniqueSlug (store.map (fun n => n.slug)) (some proposed) rng fuel with
    | none => .noFuel
    | some finalSlug =>
      let passwordHash := match password with
        | some p => if p = "" then none else some (hashFn p)
        | none => none
      let newNote : DbNote :=
        { slug := finalSlug
          title := title
          content := content
          passwordHash := passwordHash
          createdAt := now
          updatedAt := now
          expiresAt := none
          history := [⟨content, now⟩] }
      match expiresAt with
      | some t =>
        if now < t then .created finalSlug { newNote with expiresAt := some t }
        else .failure 400 "Expiration date must be in the future."
      | none => .created finalSlug newNote

/-! ## Rate limiter — `applyRateLimit` ([slug]/route.ts lines 26–49; the same
logic is inlined in POST, lines 97–117, and repeated in the history route,
lines 22–45, each file with its own store). -/

structure RateEntry where
  count : Nat
  lastReset : Nat
deriving DecidableEq

def WINDOW_SIZE_MS : Nat := 60000

/-- `MAX_REQUESTS_PER_WINDOW` of `api/notes/route.ts` (POST). -/
def MAX_REQUESTS_POST : Nat := 5

/-- `MAX_REQUESTS_PER_WINDOW` of `[slug]/route.ts` and the history route. -/
def MAX_REQUESTS_NOTE : Nat := 10

/-- `rateLimitStore.get(ip)`. -/
def rlLookup (store : List (String × RateEntry)) (ip : String) : Option RateEntry :=
  (store.find? (fun e => e.1 == ip)).map (fun e => e.2)

/-- `rateLimitStore.set(ip, e)`. -/
def rlInsert (store : List (String × RateEntry)) (ip : String) (e : RateEntry) :
    List (String × RateEntry) :=
  match store with
  | [] => [(ip, e)]
  | (k, v) :: rest =>
    if k == ip then (ip, e) :: rest else (k, v) :: rlInsert rest ip e

/-- The per-request counter update: default `{count: 0, lastReset: now}`, the
lazy window reset, then `clientData.count++`. -/
def rlStep (entry : Option RateEntry) (now : Nat) : RateEntry :=
  let c := entry.getD ⟨0, now⟩
  let c := if now - c.lastReset > WINDOW_SIZE_MS then RateEntry.mk 0 now else c
  ⟨c.count + 1, c.lastReset⟩

/-- `Math.ceil((lastReset + WINDOW_SIZE_MS - now) / 1000)`, the Retry-After
header value in seconds. -/
def retryAfterOf (lastReset now : Nat) : Nat :=
  (lastReset + WINDOW_SIZE_MS - now + 999) / 1000

/-- `applyRateLimit`: `some retryAfter` is the 429 response carrying the
Retry-After header; `none` lets the request through.  Returns the updated
store. -/
def applyRateLimit (store : List (String × RateEntry)) (ip : String)
    (now maxReq : Nat) : Option Nat × List (String × RateEntry) :=
  let e := rlStep (rlLookup store ip) now
  (if e.count > maxReq then some (retryAfterOf e.lastReset now) else none,
   rlInsert store ip e)

/-! ## C1 — expiration opacity -/

/-- C1 counterexample: on a store holding one note expired at instant 5,
at instant 10 the Update of that note fails with status 400
('Cannot update an expired note.') while the Update of an absent slug fails
with status 404 ('Note not found.') — different error categories — and the
two Read failures, though both 404, carry different messages. -/
theorem expiredVsAbsent_cex :
    putNote [⟨"gone", "T", "C", none, 0, 0, some 5, [⟨"C", 0⟩]⟩]
        (fun _ _ => true) id (fun _ => false) "gone" "T2" "C2" none none
        ExpDirective.absent 10
      = .failure 400 "Cannot update an expired note."
    ∧ putNote [⟨"gone", "T", "C", none, 0, 0, some 5, [⟨"C", 0⟩]⟩]
        (fun _ _ => true) id (fun _ => false) "missing" "T2" "C2" none none
        ExpDirective.absent 10
      = .failure 404 "Note not found."
    ∧ getNote [⟨"gone", "T", "C", none, 0, 0, some 5, [⟨"C", 0⟩]⟩]
        (fun _ _ => true) "gone" none 10
      = .failure 404 "Note has expired."
    ∧ getNote [⟨"gone", "T", "C", none, 0, 0, some 5, [⟨"C", 0⟩]⟩]
        (fun _ _ => true) "missing" none 10
      = .failure 404 "Note not found." := by
  refine ⟨by decide, by decide, by decide, by decide⟩

/-- C1 (amended): Read on an expired note and on an absent slug both return
status 404, but with different messages ('Note has expired.' vs 'Note not
found.'); Update returns 404 'Note not found.' for an absent slug but 400
'Cannot update an expired note.' for an expired note, so on Update the error
categories differ and expired notes are distinguishable from absent ones. -/
theorem expiredVsAbsent (store : List DbNote) (verify : String → String → Bool)
    (hashFn : String → String) (profane : String → Bool)
    (s1 s2 title content : String) (tok cp np : Option String)
    (d : ExpDirective) (now e : Nat) (note : DbNote)
    (h1 : findNote store s1 = some note) (h2 : note.expiresAt = some e)
    (he : e ≤ now) (h3 : findNote store s2 = none)
    (ht : title ≠ "") (hc : content ≠ "")
    (hp : profane (title ++ " " ++ content) = false) :
    getNote store verify s1 tok now = .failure 404 "Note has expired."
    ∧ getNote store verify s2 tok now = .failure 404 "Note not found."
    ∧ putNote store verify hashFn profane s1 title content cp np d now
        = .failure 400 "Cannot update an expired note."
    ∧ putNote store verify hashFn profane s2 title content cp np d now
        = .failure 404 "Note not found." := by
  have hexp : isExpired note now = true := by
    simp [isExpired, h2]
    exact he
  refine ⟨?_, ?_, ?_, ?_⟩
  · simp [getNote, h1, hexp]
  · simp [getNote, h3]
  · simp [putNote, h1, hexp, hp, ht, hc]
  · simp [putNote, h3, hp, ht, hc]

/-- Witness for `expiredVsAbsent` on a one-note store. -/
theorem expiredVsAbsent_witness :
    getNote [⟨"gone", "T", "C", none, 0, 0, some 5, [⟨"C", 0⟩]⟩]
        (fun _ _ => true) "gone" none 10 = .failure 404 "Note has expired."
    ∧ getNote [⟨"gone", "T", "C", none, 0, 0, some 5, [⟨"C", 0⟩]⟩]
        (fun _ _ => true) "nope" none 10 = .failure 404 "Note not found."
    ∧ putNote [⟨"gone", "T", "C", none, 0, 0, some 5, [⟨"C", 0⟩]⟩]
        (fun _ _ => true) id (fun _ => false) "gone" "T" "D" none none
        ExpDirective.absent 10 = .failure 400 "Cannot update an expired note."
    ∧ putNote [⟨"gone", "T", "C", none, 0, 0, some 5, [⟨"C", 0⟩]⟩]
        (fun _ _ => true) id (fun _ => false) "nope" "T" "D" none none
        ExpDirective.absent 10 = .failure 404 "Note not found." :=
  expiredVsAbsent [⟨"gone", "T", "C", none, 0, 0, some 5, [⟨"C", 0⟩]⟩]
    (fun _ _ => true) id (fun _ => false) "gone" "nope" "T" "D" none none none
    ExpDirective.absent 10 5 ⟨"gone", "T", "C", none, 0, 0, some 5, [⟨"C", 0⟩]⟩
    (by decide) rfl (by decide) (by decide) (by decide) (by decide) rfl

/-! ## C2 — history append law -/

theorem putApply_success_inv (hashFn : String → String) (note : DbNote)
    (title content : String) (np : Option String) (d : ExpDirective) (now : Nat)
    (updated : DbNote)
    (h : putApply hashFn note title content np d now = .success updated) :
    ∃ newExp, resolveExpiry note.expiresAt d now = some newExp
      ∧ updated = { note with
          title := title
          content := content
          updatedAt := now
          passwordHash := newHashOf hashFn note.passwordHash np
          expiresAt := newExp
          history := if note.content ≠ content then note.history ++ [⟨content, now⟩]
            else note.history } := by
  simp only [putApply] at h
  split at h
  · exact absurd h (by simp)
  · rename_i newExp hres
    refine ⟨newExp, hres, ?_⟩
    cases h
    rfl

theorem putNote_success_inv (store : List DbNote) (verify : String → String → Bool)
    (hashFn : String → String) (profane : String → Bool) (slug title content : String)
    (cp np : Option String) (d : ExpDirective) (now : Nat) (updated : DbNote)
    (hsucc : putNote store verify hashFn profane slug title content cp np d now
      = .success updated) :
    ∃ note newExp, findNote store slug = some note ∧ isExpired note now = false
      ∧ resolveExpiry note.expiresAt d now = some newExp
      ∧ updated = { note with
          title := title
          content := content
          updatedAt := now
          passwordHash := newHashOf hashFn note.passwordHash np
          expiresAt := newExp
          history := if note.content ≠ content then note.history ++ [⟨content, now⟩]
            else note.history } := by
  unfold putNote at hsucc
  split at hsucc
  · exact absurd hsucc (by simp)
  · split at hsucc
    · exact absurd hsucc (by simp)
    · split at hsucc
      · exact absurd hsucc (by simp)
      · rename_i note hfind
        split at hsucc
        · exact absurd hsucc (by simp)
        · rename_i hexp
          have hexp' : isExpired note now = false := by
            simpa using hexp
          split at hsucc
          · obtain ⟨newExp, hres, hupd⟩ := putApply_success_inv _ _ _ _ _ _ _ _ hsucc
            exact ⟨note, newExp, hfind, hexp', hres, hupd⟩
          · split at hsucc
            · exact absurd hsucc (by simp)
            · split at hsucc
              · exact absurd hsucc (by simp)
              · split at hsucc
                · obtain ⟨newExp, hres, hupd⟩ := putApply_success_inv _ _ _ _ _ _ _ _ hsucc
                  exact ⟨note, newExp, hfind, hexp', hres, hupd⟩
                · exact absurd hsucc (by simp)

/-- C2: on every successful Update, a revision is appended to the history if
and only if the submitted content differs from the note's content immediately
before the update; a content-preserving update (title, password or expiration
only) leaves the history unchanged; and the prior history is always a prefix
of the new one (no entry rewritten or removed). -/
theorem updateHistoryAppendLaw (store : List DbNote) (verify : String → String → Bool)
    (hashFn : String → String) (profane : String → Bool) (slug title content : String)
    (cp np : Option String) (d : ExpDirective) (now : Nat) (note updated : DbNote)
    (hfind : findNote store slug = some note)
    (hsucc : putNote store verify hashFn profane slug title content cp np d now
      = .success updated) :
    (updated.history = note.history ++ [⟨content, now⟩] ↔ content ≠ note.content)
    ∧ (content = note.content → updated.history = note.history)
    ∧ (∃ t, updated.history = note.history ++ t) := by
  obtain ⟨note', newExp, hfind', hexp, hres, hupd⟩ :=
    putNote_success_inv _ _ _ _ _ _ _ _ _ _ _ _ hsucc
  rw [hfind] at hfind'
  cases hfind'
  have hh : updated.history =
      if note.content ≠ content then note.history ++ [⟨content, now⟩]
      else note.history := by
    rw [hupd]
  by_cases hc : content = note.content
  · rw [hh, if_neg (by simp [hc])]
    refine ⟨?_, fun _ => rfl, ⟨[], by simp⟩⟩
    constructor
    · intro habs
      have hlen := congrArg List.length habs
      simp at hlen
    · intro hne
      exact absurd hc hne
  · rw [hh, if_pos (fun h => hc h.symm)]
    exact ⟨⟨fun _ => hc, fun _ => rfl⟩, fun h => absurd h hc,
      ⟨[⟨content, now⟩], rfl⟩⟩

/-- Witness for `updateHistoryAppendLaw`: updating content "A" to "B". -/
theorem updateHistoryAppendLaw_witness :
    (DbNote.history ⟨"s", "T", "B", none, 0, 7, none, [⟨"A", 0⟩, ⟨"B", 7⟩]⟩
        = DbNote.history ⟨"s", "T", "A", none, 0, 0, none, [⟨"A", 0⟩]⟩ ++ [⟨"B", 7⟩]
      ↔ "B" ≠ DbNote.content ⟨"s", "T", "A", none, 0, 0, none, [⟨"A", 0⟩]⟩)
    ∧ ("B" = DbNote.content ⟨"s", "T", "A", none, 0, 0, none, [⟨"A", 0⟩]⟩ →
        DbNote.history ⟨"s", "T", "B", none, 0, 7, none, [⟨"A", 0⟩, ⟨"B", 7⟩]⟩
          = DbNote.history ⟨"s", "T", "A", none, 0, 0, none, [⟨"A", 0⟩]⟩)
    ∧ (∃ t, DbNote.history ⟨"s", "T", "B", none, 0, 7, none, [⟨"A", 0⟩, ⟨"B", 7⟩]⟩
        = DbNote.history ⟨"s", "T", "A", none, 0, 0, none, [⟨"A", 0⟩]⟩ ++ t) :=
  updateHistoryAppendLaw [⟨"s", "T", "A", none, 0, 0, none, [⟨"A", 0⟩]⟩]
    (fun _ _ => true) id (fun _ => false) "s" "T" "B" none none ExpDirective.absent 7
    ⟨"s", "T", "A", none, 0, 0, none, [⟨"A", 0⟩]⟩
    ⟨"s", "T", "B", none, 0, 7, none, [⟨"A", 0⟩, ⟨"B", 7⟩]⟩ (by decide) (by decide)

/-! ## C4 — access gate -/

theorem putApply_failure_inv (hashFn : String → String) (note : DbNote)
    (title content : String) (np : Option String) (d : ExpDirective) (now : Nat)
    (st : Nat) (msg : String)
    (h : putApply hashFn note title content np d now = .failure st msg) :
    st = 400 ∧ msg = "Expiration date must be in the future." := by
  simp only [putApply] at h
  split at h
  · cases h
    exact ⟨rfl, rfl⟩
  · exact absurd h (by simp)

/-- C4: on a found, non-expired note, both Read and Update authorize as the
claim states.  An unprotected note (no stored digest) proceeds with no
credential check: Read succeeds for every supplied token, Update is
independent of the supplied credential and never fails with a 401.  A
protected note with no credential (absent, or empty — falsy in JS) fails with
the SecretRequired category (401 'Password required.' / 'Current password
required to update this note.').  A protected note with a nonempty credential
fails with the Unauthorized category (401 'Invalid password.' / 'Incorrect
password.') exactly when digest verification fails, and otherwise proceeds
(Read succeeds; Update never fails with a 401). -/
theorem accessGate (store : List DbNote) (verify : String → String → Bool)
    (hashFn : String → String) (profane : String → Bool)
    (slug title content : String) (np : Option String) (d : ExpDirective)
    (now : Nat) (note : DbNote)
    (hfind : findNote store slug = some note)
    (hexp : isExpired note now = false)
    (ht : title ≠ "") (hc : content ≠ "")
    (hp : profane (title ++ " " ++ content) = false) :
    (note.passwordHash = none →
      (∀ tok, getNote store verify slug tok now = .success (viewOf note))
      ∧ (∀ cp, putNote store verify hashFn profane slug title content cp np d now
          = putNote store verify hashFn profane slug title content none np d now)
      ∧ (∀ cp st msg,
          putNote store verify hashFn profane slug title content cp np d now
            = .failure st msg → st ≠ 401))
    ∧ (∀ h, note.passwordHash = some h →
        getNote store verify slug none now = .failure 401 "Password required."
        ∧ putNote store verify hashFn profane slug title content none np d now
            = .failure 401 "Current password required to update this note.")
    ∧ (∀ h tk, note.passwordHash = some h → tk ≠ "" →
        (verify tk h = false →
          getNote store verify slug (some tk) now = .failure 401 "Invalid password."
          ∧ putNote store verify hashFn profane slug title content (some tk) np d now
              = .failure 401 "Incorrect password.")
        ∧ (verify tk h = true →
          getNote store verify slug (some tk) now = .success (viewOf note)
          ∧ (∀ st msg,
              putNote store verify hashFn profane slug title content (some tk) np d now
                = .failure st msg → st ≠ 401))) := by
  refine ⟨?_, ?_, ?_⟩
  · intro hnone
    refine ⟨?_, ?_, ?_⟩
    · intro tok
      simp [getNote, hfind, hexp, hnone]
    · intro cp
      simp [putNote, hfind, hexp, hnone, ht, hc, hp]
    · intro cp st msg hfail
      have happ : putApply hashFn note title content np d now = .failure st msg := by
        simpa [putNote, hfind, hexp, hnone, ht, hc, hp] using hfail
      have := (putApply_failure_inv _ _ _ _ _ _ _ _ _ happ).1
      omega
  · intro h hsome
    constructor
    · simp [getNote, hfind, hexp, hsome]
    · simp [putNote, hfind, hexp, hsome, ht, hc, hp]
  · intro h tk hsome htk
    constructor
    · intro hv
      constructor
      · simp [getNote, hfind, hexp, hsome, htk, hv]
      · simp [putNote, hfind, hexp, hsome, ht, hc, hp, htk, hv]
    · intro hv
      constructor
      · simp [getNote, hfind, hexp, hsome, htk, hv]
      · intro st msg hfail
        have happ : putApply hashFn note title content np d now = .failure st msg := by
          simpa [putNote, hfind, hexp, hsome, ht, hc, hp, htk, hv] using hfail
        have := (putApply_failure_inv _ _ _ _ _ _ _ _ _ happ).1
        omega

/-- A sample protected note for concrete instantiations. -/
def sampleProtected : DbNote := ⟨"s", "T", "C", some "H", 0, 0, none, []⟩

/-- Witness for `accessGate` on a protected note with equality-test verify. -/
theorem accessGate_witness :
    (sampleProtected.passwordHash = none →
      (∀ tok, getNote [sampleProtected] (fun t h => t == h) "s" tok 3
          = .success (viewOf sampleProtected))
      ∧ (∀ cp, putNote [sampleProtected] (fun t h => t == h) id (fun _ => false)
            "s" "T" "D" cp none ExpDirective.absent 3
          = putNote [sampleProtected] (fun t h => t == h) id (fun _ => false)
            "s" "T" "D" none none ExpDirective.absent 3)
      ∧ (∀ cp st msg,
          putNote [sampleProtected] (fun t h => t == h) id (fun _ => false)
            "s" "T" "D" cp none ExpDirective.absent 3 = .failure st msg → st ≠ 401))
    ∧ (∀ h, sampleProtected.passwordHash = some h →
        getNote [sampleProtected] (fun t h => t == h) "s" none 3
          = .failure 401 "Password required."
        ∧ putNote [sampleProtected] (fun t h => t == h) id (fun _ => false)
            "s" "T" "D" none none ExpDirective.absent 3
          = .failure 401 "Current password required to update this note.")
    ∧ (∀ h tk, sampleProtected.passwordHash = some h → tk ≠ "" →
        ((fun t h => t == h : String → String → Bool) tk h = false →
          getNote [sampleProtected] (fun t h => t == h) "s" (some tk) 3
            = .failure 401 "Invalid password."
          ∧ putNote [sampleProtected] (fun t h => t == h) id (fun _ => false)
              "s" "T" "D" (some tk) none ExpDirective.absent 3
            = .failure 401 "Incorrect password.")
        ∧ ((fun t h => t == h : String → String → Bool) tk h = true →
          getNote [sampleProtected] (fun t h => t == h) "s" (some tk) 3
            = .success (viewOf sampleProtected)
          ∧ (∀ st msg,
              putNote [sampleProtected] (fun t h => t == h) id (fun _ => false)
                "s" "T" "D" (some tk) none ExpDirective.absent 3
                = .failure st msg → st ≠ 401))) :=
  accessGate [sampleProtected] (fun t h => t == h) id (fun _ => false) "s" "T" "D"
    none ExpDirective.absent 3 sampleProtected (by decide) (by decide) (by decide)
    (by decide) (by decide)

/-! ## C5 — empty-field validation -/

/-- C5 counterexample: a whitespace-only title (`" "`), which is empty after
trimming, is truthy in JavaScript and passes the `!title || !content` check:
both Create and Update succeed instead of rejecting with a validation error. -/
theorem validationTrim_cex :
    postNote [] (fun _ => "r") id (fun _ => false) " " "x" none none none 0 1
      = .created "r" ⟨"r", " ", "x", none, 0, 0, none, [⟨"x", 0⟩]⟩
    ∧ putNote [⟨"s", "T", "A", none, 0, 0, none, []⟩] (fun _ _ => true) id
        (fun _ => false) "s" " " "x" none none ExpDirective.absent 0
      = .success ⟨"s", " ", "x", none, 0, 0, none, [⟨"x", 0⟩]⟩ := by
  refine ⟨by decide, by decide⟩

/-- C5 (amended): Create and Update reject with the empty-fields validation
error exactly when the submitted title or content is the empty string — no
trimming is applied, so a whitespace-only title or content passes the check. -/
theorem validationEmptyOnly (store : List DbNote) (rng : Nat → String)
    (verify : String → String → Bool) (hashFn : String → String)
    (profane : String → Bool) (slug title content : String)
    (password customSlug cp np : Option String) (expAt : Option Nat)
    (d : ExpDirective) (now fuel : Nat) :
    (postNote store rng hashFn profane title content password customSlug expAt now fuel
        = .failure 400 "Title and content are required."
      ↔ (title = "" ∨ content = ""))
    ∧ (putNote store verify hashFn profane slug title content cp np d now
        = .failure 400 "Title and content are required for update."
      ↔ (title = "" ∨ content = "")) := by
  constructor
  · constructor
    · intro hf
      by_contra hne
      simp only [postNote] at hf
      rw [if_neg hne] at hf
      split at hf
      · exact absurd hf (by decide)
      · rcases hgen : generateUniqueSlug (List.map (fun n => n.slug) store)
            (some (proposedOf customSlug title)) rng fuel with _ | fs
        · rw [hgen] at hf
          simp at hf
        · rw [hgen] at hf
          rcases expAt with _ | t
          · simp at hf
          · simp only [] at hf
            split at hf
            · simp at hf
            · exact absurd hf (by decide)
    · intro hv
      unfold postNote
      rw [if_pos hv]
  · constructor
    · intro hf
      by_contra hne
      unfold putNote at hf
      rw [if_neg hne] at hf
      repeat' split at hf
      all_goals first
        | exact absurd hf (by decide)
        | exact absurd ((putApply_failure_inv _ _ _ _ _ _ _ _ _ hf).2) (by decide)
    · intro hv
      unfold putNote
      rw [if_pos hv]

/-- Witness for `validationEmptyOnly` at concrete inputs. -/
theorem validationEmptyOnly_witness :
    (postNote [] (fun _ => "r") id (fun _ => false) "" "x" none none none 0 1
        = .failure 400 "Title and content are required."
      ↔ ((("" : String) = "") ∨ (("x" : String) = "")))
    ∧ (putNote [] (fun _ _ => true) id (fun _ => false) "s" "" "x" none none
          ExpDirective.absent 0
        = .failure 400 "Title and content are required for update."
      ↔ ((("" : String) = "") ∨ (("x" : String) = ""))) :=
  validationEmptyOnly [] (fun _ => "r") (fun _ _ => true) id (fun _ => false)
    "s" "" "x" none none none none none ExpDirective.absent 0 1

/-! ## C6 — expiresAt directive resolution -/

theorem putNote_gate_pass (store : List DbNote) (verify : String → String → Bool)
    (hashFn : String → String) (profane : String → Bool)
    (slug title content : String) (cp np : Option String) (now : Nat) (note : DbNote)
    (hfind : findNote store slug = some note)
    (hexp : isExpired note now = false)
    (ht : title ≠ "") (hc : content ≠ "")
    (hp : profane (title ++ " " ++ content) = false)
    (hgate : note.passwordHash = none ∨
      ∃ h tk, note.passwordHash = some h ∧ cp = some tk ∧ tk ≠ "" ∧ verify tk h = true) :
    ∀ d, putNote store verify hashFn profane slug title content cp np d now
      = putApply hashFn note title content np d now := by
  intro d
  rcases hgate with hnone | ⟨h, tk, hsome, hcp, htk, hv⟩
  · simp [putNote, hfind, hexp, ht, hc, hp, hnone]
  · subst hcp
    simp [putNote, hfind, hexp, ht, hc, hp, hsome, htk, hv]

/-- C6: on a found, non-expired note whose access gate passes, the `expiresAt`
directive of Update resolves three ways: explicit `null` clears the stored
expiration; an explicit timestamp strictly in the future sets it; an explicit
timestamp not strictly in the future is rejected with the 400 validation error
(and the note is not modified); an absent directive leaves the stored
expiration unchanged. -/
theorem expiryDirectiveResolution (store : List DbNote) (verify : String → String → Bool)
    (hashFn : String → String) (profane : String → Bool)
    (slug title content : String) (cp np : Option String) (now : Nat) (note : DbNote)
    (hfind : findNote store slug = some note)
    (hexp : isExpired note now = false)
    (ht : title ≠ "") (hc : content ≠ "")
    (hp : profane (title ++ " " ++ content) = false)
    (hgate : note.passwordHash = none ∨
      ∃ h tk, note.passwordHash = some h ∧ cp = some tk ∧ tk ≠ "" ∧ verify tk h = true) :
    (∃ u, putNote store verify hashFn profane slug title content cp np
        ExpDirective.null now = .success u ∧ u.expiresAt = none)
    ∧ (∀ t, now < t → ∃ u, putNote store verify hashFn profane slug title content cp np
        (ExpDirective.stamp t) now = .success u ∧ u.expiresAt = some t)
    ∧ (∀ t, t ≤ now → putNote store verify hashFn profane slug title content cp np
        (ExpDirective.stamp t) now = .failure 400 "Expiration date must be in the future.")
    ∧ (∃ u, putNote store verify hashFn profane slug title content cp np
        ExpDirective.absent now = .success u ∧ u.expiresAt = note.expiresAt) := by
  have hP := putNote_gate_pass store verify hashFn profane slug title content cp np now
    note hfind hexp ht hc hp hgate
  refine ⟨?_, ?_, ?_, ?_⟩
  · rw [hP ExpDirective.null]
    simp only [putApply, resolveExpiry]
    exact ⟨_, rfl, rfl⟩
  · intro t htf
    rw [hP (ExpDirective.stamp t)]
    simp only [putApply, resolveExpiry]
    rw [if_neg (by omega)]
    exact ⟨_, rfl, rfl⟩
  · intro t htp
    rw [hP (ExpDirective.stamp t)]
    simp only [putApply, resolveExpiry]
    rw [if_pos htp]
  · rw [hP ExpDirective.absent]
    simp only [putApply, resolveExpiry]
    exact ⟨_, rfl, rfl⟩

/-- An unprotected note with a stored expiration, for concrete instantiations. -/
def sampleExpNote : DbNote := ⟨"s", "T", "A", none, 0, 0, some 100, []⟩

/-- Witness for `expiryDirectiveResolution` at instant 7 on `sampleExpNote`. -/
theorem expiryDirectiveResolution_witness :
    (∃ u, putNote [sampleExpNote] (fun _ _ => true) id (fun _ => false) "s" "T" "B"
        none none ExpDirective.null 7 = .success u ∧ u.expiresAt = none)
    ∧ (∀ t, 7 < t → ∃ u, putNote [sampleExpNote] (fun _ _ => true) id (fun _ => false)
        "s" "T" "B" none none (ExpDirective.stamp t) 7 = .success u ∧ u.expiresAt = some t)
    ∧ (∀ t, t ≤ 7 → putNote [sampleExpNote] (fun _ _ => true) id (fun _ => false)
        "s" "T" "B" none none (ExpDirective.stamp t) 7
        = .failure 400 "Expiration date must be in the future.")
    ∧ (∃ u, putNote [sampleExpNote] (fun _ _ => true) id (fun _ => false) "s" "T" "B"
        none none ExpDirective.absent 7 = .success u
        ∧ u.expiresAt = sampleExpNote.expiresAt) :=
  expiryDirectiveResolution [sampleExpNote] (fun _ _ => true) id (fun _ => false)
    "s" "T" "B" none none 7 sampleExpNote (by decide) (by decide) (by decide)
    (by decide) rfl (Or.inl rfl)

/-! ## C8 — response projections never contain the digest -/

/-- C8: every successful Read returns exactly the projection
`{title, content, isProtected, createdAt, updatedAt, expiresAt}` of the stored
note — `NoteView` has no digest field — and every successful History read
returns exactly `{title, history, isProtected}` — `HistoryView` has no digest
field.  The stored `passwordHash` influences the responses only through the
boolean `isProtected`. -/
theorem readProjection (store : List DbNote) (verify : String → String → Bool)
    (slug : String) (tok : Option String) (now : Nat) (note : DbNote)
    (hfind : findNote store slug = some note)
    (hexp : isExpired note now = false)
    (hgate : note.passwordHash = none ∨
      ∃ h tk, note.passwordHash = some h ∧ tok = some tk ∧ tk ≠ "" ∧ verify tk h = true) :
    getNote store verify slug tok now = .success (viewOf note)
    ∧ viewOf note = ⟨note.title, note.content, note.passwordHash.isSome,
        note.createdAt, note.updatedAt, note.expiresAt⟩
    ∧ getHistory store verify slug tok now
        = .success ⟨note.title, note.history, note.passwordHash.isSome⟩ := by
  rcases hgate with hnone | ⟨h, tk, hsome, htok, htk, hv⟩
  · refine ⟨?_, rfl, ?_⟩
    · simp [getNote, hfind, hexp, hnone]
    · simp [getHistory, hfind, hexp, hnone]
  · subst htok
    refine ⟨?_, rfl, ?_⟩
    · simp [getNote, hfind, hexp, hsome, htk, hv]
    · simp [getHistory, hfind, hexp, hsome, htk, hv]

/-- Witness for `readProjection` on a protected note read with its secret. -/
theorem readProjection_witness :
    getNote [sampleProtected] (fun t h => t == h) "s" (some "H") 3
      = .success (viewOf sampleProtected)
    ∧ viewOf sampleProtected = ⟨sampleProtected.title, sampleProtected.content,
        sampleProtected.passwordHash.isSome, sampleProtected.createdAt,
        sampleProtected.updatedAt, sampleProtected.expiresAt⟩
    ∧ getHistory [sampleProtected] (fun t h => t == h) "s" (some "H") 3
      = .success ⟨sampleProtected.title, sampleProtected.history,
          sampleProtected.passwordHash.isSome⟩ :=
  readProjection [sampleProtected] (fun t h => t == h) "s" (some "H") 3
    sampleProtected (by decide) (by decide)
    (Or.inr ⟨"H", "H", rfl, rfl, by decide, by decide⟩)

/-! ## C9 — create semantics -/

/-- C9: every successful Create persists a note whose history is exactly the
one-element list `[{content, timestamp: now}]` for the submitted content, whose
`createdAt` and `updatedAt` both equal the creation instant, and whose slug —
also the returned slug — is the one assigned by the identifier allocator on
`customSlug || title`. -/
theorem createSemantics (store : List DbNote) (rng : Nat → String)
    (hashFn : String → String) (profane : String → Bool) (title content : String)
    (password customSlug : Option String) (expAt : Option Nat) (now fuel : Nat)
    (slug : String) (note : DbNote)
    (h : postNote store rng hashFn profane title content password customSlug expAt now fuel
      = .created slug note) :
    note.history = [⟨content, now⟩]
    ∧ note.createdAt = now ∧ note.updatedAt = now
    ∧ note.slug = slug ∧ note.title = title ∧ note.content = content
    ∧ generateUniqueSlug (store.map (fun n => n.slug))
        (some (proposedOf customSlug title)) rng fuel = some slug := by
  simp only [postNote] at h
  split at h
  · exact absurd h (by simp)
  · split at h
    · exact absurd h (by simp)
    · rcases hgen : generateUniqueSlug (List.map (fun n => n.slug) store)
          (some (proposedOf customSlug title)) rng fuel with _ | fs
      · rw [hgen] at h
        exact absurd h (by simp)
      · rw [hgen] at h
        rcases expAt with _ | t
        · simp only [] at h
          rw [PostResult.created.injEq] at h
          obtain ⟨h1, h2⟩ := h
          subst h1
          refine ⟨?_, ?_, ?_, ?_, ?_, ?_, hgen⟩ <;> simp [← h2]
        · simp only [] at h
          split at h
          · rw [PostResult.created.injEq] at h
            obtain ⟨h1, h2⟩ := h
            subst h1
            refine ⟨?_, ?_, ?_, ?_, ?_, ?_, hgen⟩ <;> simp [← h2]
          · exact absurd h (by simp)

/-- Witness for `createSemantics`: creating "My Note" at instant 9. -/
theorem createSemantics_witness :
    DbNote.history ⟨"my-note", "My Note", "C", none, 9, 9, none, [⟨"C", 9⟩]⟩ = [⟨"C", 9⟩]
    ∧ DbNote.createdAt ⟨"my-note", "My Note", "C", none, 9, 9, none, [⟨"C", 9⟩]⟩ = 9
    ∧ DbNote.updatedAt ⟨"my-note", "My Note", "C", none, 9, 9, none, [⟨"C", 9⟩]⟩ = 9
    ∧ DbNote.slug ⟨"my-note", "My Note", "C", none, 9, 9, none, [⟨"C", 9⟩]⟩ = "my-note"
    ∧ DbNote.title ⟨"my-note", "My Note", "C", none, 9, 9, none, [⟨"C", 9⟩]⟩ = "My Note"
    ∧ DbNote.content ⟨"my-note", "My Note", "C", none, 9, 9, none, [⟨"C", 9⟩]⟩ = "C"
    ∧ generateUniqueSlug (List.map (fun n => n.slug) ([] : List DbNote))
        (some (proposedOf none "My Note")) (fun _ => "r") 1 = some "my-note" :=
  createSemantics [] (fun _ => "r") id (fun _ => false) "My Note" "C" none none none
    9 1 "my-note" ⟨"my-note", "My Note", "C", none, 9, 9, none, [⟨"C", 9⟩]⟩ (by decide)

/-! ## C10 — rate limiter dynamics -/

theorem rlLookup_insert (store : List (String × RateEntry)) (ip : String)
    (e : RateEntry) : rlLookup (rlInsert store ip e) ip = some e := by
  induction store with
  | nil => simp [rlInsert, rlLookup]
  | cons kv rest ih =>
    obtain ⟨k, v⟩ := kv
    by_cases hk : k == ip
    · simp [rlInsert, rlLookup, hk]
    · simp only [rlInsert, hk, Bool.false_eq_true, if_false]
      simpa [rlLookup, hk] using ih

/-- C10: the in-memory rate limiter increments the client's counter on every
request, including rejected ones; it answers 429 with a Retry-After value
exactly when the incremented counter exceeds the per-window maximum (5 for
Create, 10 for Read/Update/History); the counter is reset (to zero, then
incremented to 1) on the first request arriving more than one 60-second window
after its last reset, and a fresh client starts at count 1; within the window
a saturated client stays blocked. -/
theorem rateLimiterLaw (store : List (String × RateEntry)) (ip : String)
    (now m : Nat) (e : RateEntry) (hlook : rlLookup store ip = some e) :
    rlLookup (applyRateLimit store ip now m).2 ip = some (rlStep (some e) now)
    ∧ rlStep (some e) now =
        (if now - e.lastReset > WINDOW_SIZE_MS then ⟨1, now⟩
         else ⟨e.count + 1, e.lastReset⟩)
    ∧ (applyRateLimit store ip now m).1 =
        (if (rlStep (some e) now).count > m then
          some (retryAfterOf (rlStep (some e) now).lastReset now)
         else none)
    ∧ (m ≤ e.count → now - e.lastReset ≤ WINDOW_SIZE_MS →
        (applyRateLimit store ip now m).1.isSome = true)
    ∧ rlStep none now = ⟨1, now⟩
    ∧ MAX_REQUESTS_POST = 5 ∧ MAX_REQUESTS_NOTE = 10 ∧ WINDOW_SIZE_MS = 60000 := by
  refine ⟨?_, ?_, ?_, ?_, ?_, rfl, rfl, rfl⟩
  · simp only [applyRateLimit, hlook]
    exact rlLookup_insert store ip _
  · by_cases hw : now - e.lastReset > WINDOW_SIZE_MS <;> simp [rlStep, hw]
  · simp only [applyRateLimit, hlook]
  · intro h1 h2
    have hw : ¬ (now - e.lastReset > WINDOW_SIZE_MS) := by omega
    simp only [applyRateLimit, hlook, rlStep, Option.getD, hw, if_false]
    rw [if_pos (by simp [hw]; omega)]
    simp
  · simp [rlStep]

/-- Witness for `rateLimiterLaw`: a client saturated at count 5 under the
Create maximum, within the window. -/
theorem rateLimiterLaw_witness :
    rlLookup (applyRateLimit [("ip", ⟨5, 0⟩)] "ip" 10 MAX_REQUESTS_POST).2 "ip"
      = some (rlStep (some ⟨5, 0⟩) 10)
    ∧ rlStep (some ⟨5, 0⟩) 10 =
        (if 10 - RateEntry.lastReset ⟨5, 0⟩ > WINDOW_SIZE_MS then ⟨1, 10⟩
         else ⟨RateEntry.count ⟨5, 0⟩ + 1, RateEntry.lastReset ⟨5, 0⟩⟩)
    ∧ (applyRateLimit [("ip", ⟨5, 0⟩)] "ip" 10 MAX_REQUESTS_POST).1 =
        (if (rlStep (some ⟨5, 0⟩) 10).count > MAX_REQUESTS_POST then
          some (retryAfterOf (rlStep (some ⟨5, 0⟩) 10).lastReset 10)
         else none)
    ∧ (MAX_REQUESTS_POST ≤ RateEntry.count ⟨5, 0⟩ →
        10 - RateEntry.lastReset ⟨5, 0⟩ ≤ WINDOW_SIZE_MS →
        (applyRateLimit [("ip", ⟨5, 0⟩)] "ip" 10 MAX_REQUESTS_POST).1.isSome = true)
    ∧ rlStep none 10 = ⟨1, 10⟩
    ∧ MAX_REQUESTS_POST = 5 ∧ MAX_REQUESTS_NOTE = 10 ∧ WINDOW_SIZE_MS = 60000 :=
  rateLimiterLaw [("ip", ⟨5, 0⟩)] "ip" 10 MAX_REQUESTS_POST ⟨5, 0⟩ (by decide)
